import Mathlib

/-!
Shallow embedding of `src/uniswap_gov_alert.py`: a scheduled job that polls a
Discourse category feed, diffs the listing against a persisted watermark
(`uniswap_last_seen.json`), and dispatches one Telegram message per new topic.

Modelling choices:
* A `Topic` is the record `{id, title, slug}` read from the feed.
* The state file is `Option StateRecord`: `none` means the file does not
  exist; `StateRecord.last_topic_id` is `none` when the JSON object exists
  but lacks the `"last_topic_id"` key.
* Effects are passed explicitly.  `Env` carries the two Telegram
  credentials (an `Option String` models an env var that may be unset;
  Python treats both `None` and `""` as falsy, hence `getD ""`), and a
  `post_ok` oracle saying whether the Telegram API accepts a given message
  text (`r.raise_for_status()` failing is `post_ok = false`).
* A run's observable outcome is collected in `RunOut`: the topics whose
  notification was successfully dispatched (in dispatch order), the message
  texts, the resulting state file, the list of values written to the state
  file, and `Except Err Unit` for normal return vs. a raised exception.
* Python's stable `sort`/`sorted` keyed on `t["id"]` is
  `List.insertionSort` (stable) under the corresponding key relation.
-/

/-- Error taxonomy of the job: `configError` is the `RuntimeError` raised by
`send_telegram` when a credential is unset, `dispatchError` is
`raise_for_status` on the Telegram POST. -/
inductive Err where
  | configError
  | dispatchError
deriving Repr, DecidableEq

/-- Process environment: the two Telegram credentials and the network's
response to a message POST. -/
structure Env where
  bot_token : Option String
  chat_id : Option String
  post_ok : String → Bool

/-- One forum topic as consumed from the category JSON. -/
structure Topic where
  id : Nat
  title : String
  slug : String
deriving Repr, DecidableEq

/-- The persisted JSON record in `uniswap_last_seen.json`; the field is
optional because `load_last_seen` uses `obj.get("last_topic_id", 0)`. -/
structure StateRecord where
  last_topic_id : Option Nat
deriving Repr, DecidableEq

/-- The `"topic_list"` object of the category response. -/
structure TopicList where
  topics : Option (List Topic)

/-- The category JSON response body. -/
structure CategoryResponse where
  topic_list : Option TopicList

/-- Ordering key used by `sorted(new_topics, key=lambda t: t["id"])`. -/
def topicLE (a b : Topic) : Prop := a.id ≤ b.id

/-- Ordering key used by `topics.sort(key=lambda t: t["id"], reverse=True)`. -/
def topicGE (a b : Topic) : Prop := b.id ≤ a.id

instance : DecidableRel topicLE := fun a b => inferInstanceAs (Decidable (a.id ≤ b.id))

instance : DecidableRel topicGE := fun a b => inferInstanceAs (Decidable (b.id ≤ a.id))

instance : IsTotal Topic topicLE := ⟨fun a b => Nat.le_total a.id b.id⟩

instance : IsTrans Topic topicLE := ⟨fun _ _ _ h h' => Nat.le_trans h h'⟩

instance : IsTotal Topic topicGE := ⟨fun a b => (Nat.le_total b.id a.id).symm.imp id id |>.symm⟩

instance : IsTrans Topic topicGE := ⟨fun _ _ _ h h' => Nat.le_trans h' h⟩

-- ---- Config (module-level constants) ----

def UNISWAP_FORUM_NAME : String := "Uniswap Proposal Discussion"

def UNISWAP_BASE_URL : String := "https://gov.uniswap.org"

-- ---- Helpers ----

/-- Model of `send_telegram(text)`: raises `RuntimeError` when either credential is
falsy (unset or empty), otherwise POSTs and raises on a non-success
status. -/
def send_telegram (env : Env) (text : String) : Except Err Unit :=
  if env.bot_token.getD "" = "" ∨ env.chat_id.getD "" = "" then
    .error .configError
  else if env.post_ok text then
    .ok ()
  else
    .error .dispatchError

/-- The `data.get("topic_list", {}).get("topics", [])` extraction: both
`get` defaults make a missing key an empty listing. -/
def raw_topics (d : CategoryResponse) : List Topic :=
  (d.topic_list.getD ⟨none⟩).topics.getD []

/-- Model of `fetch_uniswap_topics()`: extract the listing and sort it newest-first
(stable descending by id). -/
def fetch_uniswap_topics (d : CategoryResponse) : List Topic :=
  List.insertionSort topicGE (raw_topics d)

/-- Model of `load_last_seen(path)`: `0` when the file does not exist, else
`int(obj.get("last_topic_id", 0))`. -/
def load_last_seen (st : Option StateRecord) : Nat :=
  match st with
  | none => 0
  | some obj => obj.last_topic_id.getD 0

/-- Model of `save_last_seen(path, topic_id)`: the record written to the file. -/
def save_last_seen (topic_id : Nat) : StateRecord :=
  ⟨some topic_id⟩

/-- The expression `max(t["id"] for t in topics)` (its call site guards non-emptiness). -/
def max_id (topics : List Topic) : Nat :=
  (topics.map Topic.id).foldl max 0

-- ---- Message formatting ----

/-- The link `f"{UNISWAP_BASE_URL}/t/{slug}/{topic_id}"`. -/
def topic_url (t : Topic) : String :=
  UNISWAP_BASE_URL ++ "/t/" ++ t.slug ++ "/" ++ toString t.id

/-- The test-mode message body (note the stray `*` after the forum name is
as in the source). -/
def test_msg (t : Topic) : String :=
  "*[TEST]* Latest topic on " ++ UNISWAP_FORUM_NAME ++ "*\n" ++ t.title ++ "\n" ++ topic_url t

/-- The normal-mode message body. -/
def normal_msg (t : Topic) : String :=
  "*New Uniswap governance thread*\n" ++ t.title ++ "\n" ++ topic_url t

-- ---- Run outcomes ----

instance : DecidableEq (Except Err Unit) := fun a b =>
  match a, b with
  | .ok (), .ok () => isTrue rfl
  | .error e, .error e' =>
    match decEq e e' with
    | isTrue h => isTrue (by rw [h])
    | isFalse h => isFalse (by intro hh; cases hh; exact h rfl)
  | .ok _, .error _ => isFalse (by intro h; cases h)
  | .error _, .ok _ => isFalse (by intro h; cases h)

/-- Outcome of the normal-mode `for` loop over sorted new topics. -/
structure LoopOut where
  sent : List Topic
  msgs : List String
  tracking : Nat
  result : Except Err Unit
deriving Repr, DecidableEq

/-- Observable outcome of a stateful run: successfully dispatched topics (in
order), their message texts, the resulting state file, the sequence of
values written to it, and normal return vs. raised exception. -/
structure RunOut where
  sent : List Topic
  msgs : List String
  state : Option StateRecord
  writes : List Nat
  result : Except Err Unit
deriving Repr, DecidableEq

/-- Outcome of test mode, which has no access to the state file. -/
structure ForceOut where
  sent : List Topic
  msgs : List String
  result : Except Err Unit
deriving Repr, DecidableEq

-- ---- Core logic ----

/-- Model of `run_force_latest(topics)`: no-op on an empty listing, else send a
`[TEST]` alert for `topics[0]`. -/
def run_force_latest (env : Env) (topics : List Topic) : ForceOut :=
  match topics with
  | [] => { sent := [], msgs := [], result := .ok () }
  | latest :: _ =>
    match send_telegram env (test_msg latest) with
    | .ok _ => { sent := [latest], msgs := [test_msg latest], result := .ok () }
    | .error e => { sent := [], msgs := [], result := .error e }

/-- The `for t in new_topics_sorted` loop of `run_normal`: dispatch each
topic's alert, then set `last_seen = topic_id`; an exception from
`send_telegram` aborts the loop with the tracking value as it stood. -/
def notify_loop (env : Env) : List Topic → Nat → LoopOut
  | [], last_seen => { sent := [], msgs := [], tracking := last_seen, result := .ok () }
  | t :: rest, last_seen =>
    match send_telegram env (normal_msg t) with
    | .error e => { sent := [], msgs := [], tracking := last_seen, result := .error e }
    | .ok _ =>
      let o := notify_loop env rest t.id
      { sent := t :: o.sent, msgs := normal_msg t :: o.msgs, tracking := o.tracking,
        result := o.result }

/-- Model of `run_normal(topics, state_path)`. -/
def run_normal (env : Env) (topics : List Topic) (st : Option StateRecord) : RunOut :=
  if topics.isEmpty then
    { sent := [], msgs := [], state := st, writes := [], result := .ok () }
  else
    match st with
    | none =>
      let m := max_id topics
      { sent := [], msgs := [], state := some (save_last_seen m), writes := [m],
        result := .ok () }
    | some _ =>
      let last_seen := load_last_seen st
      let new_topics := topics.filter fun t => decide (last_seen < t.id)
      if new_topics.isEmpty then
        { sent := [], msgs := [], state := st, writes := [], result := .ok () }
      else
        let new_topics_sorted := List.insertionSort topicLE new_topics
        let o := notify_loop env new_topics_sorted last_seen
        match o.result with
        | .ok _ =>
          { sent := o.sent, msgs := o.msgs, state := some (save_last_seen o.tracking),
            writes := [o.tracking], result := .ok () }
        | .error e =>
          { sent := o.sent, msgs := o.msgs, state := st, writes := [], result := .error e }

/-- Model of `main()`: fetch, then dispatch to test mode (`FORCE_LATEST`) or normal
mode; test mode never receives the state path. -/
def mainRun (env : Env) (force_latest : Bool) (d : CategoryResponse)
    (st : Option StateRecord) : RunOut :=
  let topics := fetch_uniswap_topics d
  if force_latest then
    let o := run_force_latest env topics
    { sent := o.sent, msgs := o.msgs, state := st, writes := [], result := o.result }
  else
    run_normal env topics st

-- ---- Concrete sample data (used by witnesses) ----

def topicA : Topic := ⟨5, "Fee tier update", "fee-tier-update"⟩

def topicB : Topic := ⟨7, "Treasury RFC", "treasury-rfc"⟩

def topicC : Topic := ⟨3, "Delegate thread", "delegate-thread"⟩

def topic7 : Topic := ⟨7, "Seventh thread", "seventh-thread"⟩

def topic8 : Topic := ⟨8, "Eighth thread", "eighth-thread"⟩

def topic9 : Topic := ⟨9, "Ninth thread", "ninth-thread"⟩

def envOK : Env := ⟨some "token", some "chat", fun _ => true⟩

def envNoCreds : Env := ⟨none, some "chat", fun _ => true⟩

def envFail9 : Env := ⟨some "token", some "chat", fun m => !(m == normal_msg topic9)⟩

def respAB : CategoryResponse := ⟨some ⟨some [topic8, topic9]⟩⟩

def respEmpty : CategoryResponse := ⟨some ⟨some []⟩⟩

-- ---- Generic helper lemmas ----

theorem le_foldl_max (l : List Nat) (acc : Nat) : acc ≤ l.foldl max acc := by
  induction l generalizing acc with
  | nil => exact Nat.le_refl acc
  | cons x l ih =>
    exact Nat.le_trans (Nat.le_max_left acc x) (ih (max acc x))

theorem mem_le_foldl_max {x : Nat} {l : List Nat} (h : x ∈ l) (acc : Nat) :
    x ≤ l.foldl max acc := by
  induction l generalizing acc with
  | nil => cases h
  | cons y l ih =>
    rcases List.mem_cons.mp h with rfl | hx
    · exact Nat.le_trans (Nat.le_max_right acc x) (le_foldl_max l (max acc x))
    · exact ih hx (max acc y)

theorem foldl_max_mem (l : List Nat) (acc : Nat) :
    l.foldl max acc = acc ∨ l.foldl max acc ∈ l := by
  induction l generalizing acc with
  | nil => exact Or.inl rfl
  | cons x l ih =>
    rcases ih (max acc x) with h | h
    · rcases Nat.le_total acc x with hax | hxa
      · right
        rw [List.foldl_cons, h, Nat.max_eq_right hax]
        exact List.mem_cons_self x l
      · left
        rw [List.foldl_cons, h, Nat.max_eq_left hxa]
    · right
      exact List.mem_cons_of_mem x h

theorem max_id_is_max {t : Topic} {ts : List Topic} (h : t ∈ ts) : t.id ≤ max_id ts :=
  mem_le_foldl_max (List.mem_map_of_mem Topic.id h) 0

theorem max_id_mem {ts : List Topic} (h : ts ≠ []) : max_id ts ∈ ts.map Topic.id := by
  rcases foldl_max_mem (ts.map Topic.id) 0 with h0 | hm
  · cases ts with
    | nil => exact absurd rfl h
    | cons t ts' =>
      have ht : t.id ≤ max_id (t :: ts') := max_id_is_max (List.mem_cons_self t ts')
      have : t.id = 0 := Nat.le_zero.mp (by rw [max_id] at ht; exact h0 ▸ ht)
      show max_id (t :: ts') ∈ (t :: ts').map Topic.id
      rw [max_id, h0, ← this]
      exact List.mem_map_of_mem Topic.id (List.mem_cons_self t ts')
  · exact hm

theorem getLastD_mem {l : List Nat} (h : l ≠ []) (d : Nat) : l.getLastD d ∈ l := by
  induction l generalizing d with
  | nil => exact absurd rfl h
  | cons a l ih =>
    rw [List.getLastD_cons]
    cases l with
    | nil => simp
    | cons b m => exact List.mem_cons_of_mem _ (ih (by simp) a)

theorem sorted_le_getLastD {l : List Nat} (hs : l.Sorted (· ≤ ·)) {x : Nat}
    (hx : x ∈ l) (d : Nat) : x ≤ l.getLastD d := by
  induction l generalizing d with
  | nil => cases hx
  | cons a m ih =>
    rw [List.getLastD_cons]
    rcases List.mem_cons.mp hx with rfl | hxm
    · cases m with
      | nil => exact Nat.le_refl x
      | cons b m' =>
        exact List.rel_of_sorted_cons hs _ (getLastD_mem (by simp) x)
    · exact ih hs.of_cons hxm a

-- ---- Behaviour of the notification loop ----

/-- Structural facts about the `for` loop: the successfully dispatched topics
form a prefix of the batch; the tracking value is the id of the last
dispatched topic (or the initial `last_seen` when none was); the messages
are the normal-mode renderings of the dispatched topics; and a loop that
returns normally dispatched the whole batch. -/
theorem notify_loop_spec (env : Env) (ts : List Topic) (w : Nat) :
    (notify_loop env ts w).sent <+: ts ∧
    (notify_loop env ts w).tracking =
      (((notify_loop env ts w).sent).map Topic.id).getLastD w ∧
    (notify_loop env ts w).msgs = ((notify_loop env ts w).sent).map normal_msg ∧
    ((notify_loop env ts w).result = .ok () → (notify_loop env ts w).sent = ts) := by
  induction ts generalizing w with
  | nil =>
    refine ⟨List.nil_prefix, rfl, rfl, fun _ => rfl⟩
  | cons t rest ih =>
    rcases hsend : send_telegram env (normal_msg t) with e | u
    · refine ⟨?_, ?_, ?_, ?_⟩ <;> simp only [notify_loop, hsend]
      · exact List.nil_prefix
      · rfl
      · rfl
      · intro hres
        simp at hres
    · obtain ⟨ih1, ih2, ih3, ih4⟩ := ih t.id
      refine ⟨?_, ?_, ?_, ?_⟩ <;> simp only [notify_loop, hsend]
      · obtain ⟨v, hv⟩ := ih1
        exact ⟨v, by rw [List.cons_append, hv]⟩
      · rw [List.map_cons, List.getLastD_cons]
        exact ih2
      · rw [List.map_cons, ← ih3]
      · intro hres
        rw [ih4 hres]

/-- When every dispatch succeeds the loop sends the whole batch in order and
finishes with the tracking value at the last id of the batch. -/
theorem notify_loop_all_ok (env : Env) (hok : ∀ m, send_telegram env m = .ok ())
    (ts : List Topic) (w : Nat) :
    notify_loop env ts w =
      { sent := ts, msgs := ts.map normal_msg,
        tracking := (ts.map Topic.id).getLastD w, result := .ok () } := by
  induction ts generalizing w with
  | nil => rfl
  | cons t rest ih =>
    simp only [notify_loop, hok (normal_msg t), ih t.id, List.map_cons, List.getLastD_cons]

/-- The tracking value never falls below the initial watermark when the batch
only holds topics strictly above it. -/
theorem notify_loop_tracking_ge (env : Env) (ts : List Topic) (w : Nat)
    (hgt : ∀ t ∈ ts, w < t.id) : w ≤ (notify_loop env ts w).tracking := by
  obtain ⟨h1, h2, _, _⟩ := notify_loop_spec env ts w
  rcases hsent : (notify_loop env ts w).sent with _ | ⟨t, sent'⟩
  · rw [h2, hsent]
    exact Nat.le_refl w
  · rw [h2, hsent]
    have hmem : ((t :: sent').map Topic.id).getLastD w ∈ (t :: sent').map Topic.id :=
      getLastD_mem (by simp) w
    obtain ⟨u, hu, hid⟩ := List.mem_map.mp hmem
    have humem : u ∈ ts := h1.sublist.mem (hsent ▸ hu)
    rw [← hid]
    exact Nat.le_of_lt (hgt u humem)

/-- A loop over a sorted batch that returns normally ends with the tracking
value equal to the maximum id of the batch. -/
theorem notify_loop_ok_tracking_max (env : Env) (ts : List Topic) (w : Nat)
    (hres : (notify_loop env ts w).result = .ok ())
    (hs : List.Sorted topicLE ts) (hne : ts ≠ []) :
    ((∀ t ∈ ts, t.id ≤ (notify_loop env ts w).tracking) ∧
      (notify_loop env ts w).tracking ∈ ts.map Topic.id) := by
  obtain ⟨_, h2, _, h4⟩ := notify_loop_spec env ts w
  have hsent := h4 hres
  have hsorted : (ts.map Topic.id).Sorted (· ≤ ·) :=
    List.pairwise_map.mpr (hs.imp fun h => h)
  constructor
  · intro t ht
    rw [h2, hsent]
    exact sorted_le_getLastD hsorted (List.mem_map_of_mem Topic.id ht) w
  · rw [h2, hsent]
    exact getLastD_mem (by simpa using hne) w

-- ---- Branch equations for run_normal ----

theorem run_normal_nil_eq (env : Env) (st : Option StateRecord) :
    run_normal env [] st =
      { sent := [], msgs := [], state := st, writes := [], result := .ok () } := rfl

theorem run_normal_first_eq (env : Env) (t0 : Topic) (ts' : List Topic) :
    run_normal env (t0 :: ts') none =
      { sent := [], msgs := [], state := some (save_last_seen (max_id (t0 :: ts'))),
        writes := [max_id (t0 :: ts')], result := .ok () } := rfl

theorem run_normal_cons_no_new (env : Env) (t0 : Topic) (ts' : List Topic) (r : StateRecord)
    (hfil : (t0 :: ts').filter (fun t => decide (load_last_seen (some r) < t.id)) = []) :
    run_normal env (t0 :: ts') (some r) =
      { sent := [], msgs := [], state := some r, writes := [], result := .ok () } := by
  simp only [run_normal, List.isEmpty_cons, Bool.false_eq_true, if_false, hfil,
    List.isEmpty_nil, if_true]

theorem run_normal_cons_new_ok (env : Env) (t0 : Topic) (ts' : List Topic) (r : StateRecord)
    (new : List Topic) (o : LoopOut)
    (hfil : (t0 :: ts').filter (fun t => decide (load_last_seen (some r) < t.id)) = new)
    (hne : new.isEmpty = false)
    (ho : notify_loop env (List.insertionSort topicLE new) (load_last_seen (some r)) = o)
    (hres : o.result = .ok ()) :
    run_normal env (t0 :: ts') (some r) =
      { sent := o.sent, msgs := o.msgs, state := some (save_last_seen o.tracking),
        writes := [o.tracking], result := .ok () } := by
  simp only [run_normal, List.isEmpty_cons, Bool.false_eq_true, if_false, hfil, hne, ho, hres]

theorem run_normal_cons_new_err (env : Env) (t0 : Topic) (ts' : List Topic) (r : StateRecord)
    (new : List Topic) (o : LoopOut) (e : Err)
    (hfil : (t0 :: ts').filter (fun t => decide (load_last_seen (some r) < t.id)) = new)
    (hne : new.isEmpty = false)
    (ho : notify_loop env (List.insertionSort topicLE new) (load_last_seen (some r)) = o)
    (hres : o.result = .error e) :
    run_normal env (t0 :: ts') (some r) =
      { sent := o.sent, msgs := o.msgs, state := some r, writes := [],
        result := .error e } := by
  simp only [run_normal, List.isEmpty_cons, Bool.false_eq_true, if_false, hfil, hne, ho, hres]

-- ---- Claims ----

/-- C2: on the first-ever normal run (no persisted record) with a non-empty
topic list, zero notifications are dispatched and the persisted watermark is
initialized to the maximum id over all fetched topics. -/
theorem c2_first_run_initializes (env : Env) (ts : List Topic) (hne : ts ≠ []) :
    (run_normal env ts none).sent = [] ∧
    (run_normal env ts none).msgs = [] ∧
    (run_normal env ts none).state = some (save_last_seen (max_id ts)) ∧
    max_id ts ∈ ts.map Topic.id ∧
    (∀ t ∈ ts, t.id ≤ max_id ts) ∧
    (run_normal env ts none).result = .ok () := by
  obtain ⟨t0, ts', rfl⟩ := List.exists_cons_of_ne_nil hne
  rw [run_normal_first_eq]
  exact ⟨rfl, rfl, rfl, max_id_mem hne, fun t ht => max_id_is_max ht, rfl⟩

/-- C2 witness: topics with ids `{5, 7, 3}` give zero notifications and
persisted watermark `7`. -/
theorem c2_first_run_witness :
    (run_normal envOK [topicA, topicB, topicC] none).sent = [] ∧
    (run_normal envOK [topicA, topicB, topicC] none).state = some (save_last_seen 7) :=
  ⟨(c2_first_run_initializes envOK [topicA, topicB, topicC] (by decide)).1,
    ((c2_first_run_initializes envOK [topicA, topicB, topicC] (by decide)).2.2.1).trans
      (by decide)⟩

/-- C3: when a normal run raises, the state file is exactly as before the
run and no write to it happened, whatever was dispatched earlier in the
batch. -/
theorem c3_dispatch_failure_aborts (env : Env) (ts : List Topic) (st : Option StateRecord)
    (e : Err) (hres : (run_normal env ts st).result = .error e) :
    (run_normal env ts st).state = st ∧ (run_normal env ts st).writes = [] := by
  cases ts with
  | nil =>
    rw [run_normal_nil_eq] at hres
    cases hres
  | cons t0 ts' =>
    cases st with
    | none =>
      rw [run_normal_first_eq] at hres
      cases hres
    | some r =>
      rcases hfil : (t0 :: ts').filter (fun t => decide (load_last_seen (some r) < t.id)) with
        _ | ⟨n, new'⟩
      · rw [run_normal_cons_no_new env t0 ts' r hfil] at hres
        cases hres
      · rcases hres2 : (notify_loop env (List.insertionSort topicLE (n :: new'))
            (load_last_seen (some r))).result with e' | u
        · rw [run_normal_cons_new_err env t0 ts' r (n :: new') _ e' hfil rfl rfl hres2]
          exact ⟨rfl, rfl⟩
        · rw [run_normal_cons_new_ok env t0 ts' r (n :: new') _ hfil rfl rfl hres2] at hres
          cases hres

/-- C3 witness: watermark 7, batch ids `{8, 9}` with the dispatch of id 9
failing: the alert for id 8 was sent, the run raises `dispatchError`, and
the state file still holds 7. -/
theorem c3_dispatch_failure_witness :
    (run_normal envFail9 [topic9, topic8] (some ⟨some 7⟩)).result = .error .dispatchError ∧
    (run_normal envFail9 [topic9, topic8] (some ⟨some 7⟩)).sent = [topic8] ∧
    (run_normal envFail9 [topic9, topic8] (some ⟨some 7⟩)).state = some ⟨some 7⟩ ∧
    (run_normal envFail9 [topic9, topic8] (some ⟨some 7⟩)).writes = [] :=
  ⟨by decide, by decide,
    (c3_dispatch_failure_aborts envFail9 [topic9, topic8] (some ⟨some 7⟩) .dispatchError
      (by decide)).1,
    (c3_dispatch_failure_aborts envFail9 [topic9, topic8] (some ⟨some 7⟩) .dispatchError
      (by decide)).2⟩

/-- C4: the loop's in-memory tracking value always equals the id of the last
successfully dispatched topic (the initial `last_seen` when none was), and
the successfully dispatched topics are a prefix of the batch, so a mid-loop
failure leaves the tracking value at the last successfully processed topic,
not at the batch start. -/
theorem c4_tracking_last_dispatched (env : Env) (ts : List Topic) (w : Nat) :
    (notify_loop env ts w).tracking =
      (((notify_loop env ts w).sent).map Topic.id).getLastD w ∧
    (notify_loop env ts w).sent <+: ts :=
  ⟨(notify_loop_spec env ts w).2.1, (notify_loop_spec env ts w).1⟩

/-- C10: a state file that exists and parses but lacks `"last_topic_id"`
silently loads as 0, so a following normal run (all real topic ids being
positive) treats every fetched topic as new and notifies all of them. -/
theorem c10_missing_field_defaults_zero (env : Env) (ts : List Topic)
    (hpos : ∀ t ∈ ts, 0 < t.id) (hok : ∀ m, send_telegram env m = .ok ()) :
    load_last_seen (some { last_topic_id := none }) = 0 ∧
    ts.filter (fun t => decide (load_last_seen (some { last_topic_id := none }) < t.id)) = ts ∧
    List.Perm ((run_normal env ts (some { last_topic_id := none })).sent) ts := by
  have hfil : ts.filter
      (fun t => decide (load_last_seen (some { last_topic_id := none }) < t.id)) = ts :=
    List.filter_eq_self.mpr fun t ht => decide_eq_true (hpos t ht)
  refine ⟨rfl, hfil, ?_⟩
  cases ts with
  | nil =>
    rw [run_normal_nil_eq]
  | cons t0 ts' =>
    rw [run_normal_cons_new_ok env t0 ts' { last_topic_id := none } (t0 :: ts') _ hfil rfl
      (notify_loop_all_ok env hok _ _) rfl]
    exact List.perm_insertionSort topicLE (t0 :: ts')

/-- C10 witness: with the record `{}` present, the load yields 0 and a run
over ids `{5, 3}` notifies both topics. -/
theorem c10_missing_field_witness :
    load_last_seen (some { last_topic_id := none }) = 0 ∧
    List.Perm ((run_normal envOK [topicA, topicC] (some { last_topic_id := none })).sent)
      [topicA, topicC] :=
  ⟨(c10_missing_field_defaults_zero envOK [topicA, topicC] (by decide) (fun _ => rfl)).1,
    (c10_missing_field_defaults_zero envOK [topicA, topicC] (by decide) (fun _ => rfl)).2.2⟩

/-- A normal run over a record-backed state in which no fetched topic exceeds
the loaded watermark is a no-op. -/
theorem run_normal_no_new_general (env : Env) (ts : List Topic) (r : StateRecord)
    (hle : ∀ t ∈ ts, t.id ≤ load_last_seen (some r)) :
    run_normal env ts (some r) =
      { sent := [], msgs := [], state := some r, writes := [], result := .ok () } := by
  cases ts with
  | nil => exact run_normal_nil_eq env (some r)
  | cons t0 ts' =>
    exact run_normal_cons_no_new env t0 ts' r
      (List.filter_eq_nil_iff.mpr fun t ht h =>
        absurd (of_decide_eq_true h) (Nat.not_lt.mpr (hle t ht)))

/-- Every topic of the batch admitted by the filter is strictly above the
loaded watermark, transported along the ascending sort. -/
theorem sorted_new_gt (r : StateRecord) (new : List Topic) (ts : List Topic)
    (hfil : ts.filter (fun t => decide (load_last_seen (some r) < t.id)) = new) :
    ∀ t ∈ List.insertionSort topicLE new, load_last_seen (some r) < t.id := by
  intro t ht
  have hmem : t ∈ new := (List.perm_insertionSort topicLE new).mem_iff.mp ht
  have := List.mem_filter.mp (hfil ▸ hmem)
  exact of_decide_eq_true this.2

/-- C5: the persisted watermark never decreases across a normal run: the
loaded value is a lower bound for the value after the run; a first run over
a non-empty listing initializes it to the maximum fetched id; and a
record-backed run that dispatches nothing leaves the record untouched and
performs no write. -/
theorem c5_watermark_monotone (env : Env) (ts : List Topic) (st : Option StateRecord) :
    load_last_seen st ≤ load_last_seen (run_normal env ts st).state ∧
    (st = none → ts ≠ [] →
      (run_normal env ts st).state = some (save_last_seen (max_id ts))) ∧
    (st.isSome = true → (run_normal env ts st).sent = [] →
      (run_normal env ts st).state = st ∧ (run_normal env ts st).writes = []) := by
  cases ts with
  | nil =>
    rw [run_normal_nil_eq]
    exact ⟨Nat.le_refl _, fun h hne => absurd rfl hne, fun _ _ => ⟨rfl, rfl⟩⟩
  | cons t0 ts' =>
    cases st with
    | none =>
      rw [run_normal_first_eq]
      exact ⟨Nat.zero_le _, fun _ _ => rfl, fun h => Bool.noConfusion h⟩
    | some r =>
      rcases hfil : (t0 :: ts').filter (fun t => decide (load_last_seen (some r) < t.id)) with
        _ | ⟨n, new'⟩
      · rw [run_normal_cons_no_new env t0 ts' r hfil]
        exact ⟨Nat.le_refl _, fun h _ => Option.noConfusion h, fun _ _ => ⟨rfl, rfl⟩⟩
      · rcases hres2 : (notify_loop env (List.insertionSort topicLE (n :: new'))
            (load_last_seen (some r))).result with e' | u
        · rw [run_normal_cons_new_err env t0 ts' r (n :: new') _ e' hfil rfl rfl hres2]
          exact ⟨Nat.le_refl _, fun h _ => Option.noConfusion h, fun _ _ => ⟨rfl, rfl⟩⟩
        · rw [run_normal_cons_new_ok env t0 ts' r (n :: new') _ hfil rfl rfl hres2]
          refine ⟨?_, fun h _ => Option.noConfusion h, fun _ hsent => ?_⟩
          · exact notify_loop_tracking_ge env _ _ (sorted_new_gt r (n :: new') _ hfil)
          · exfalso
            have hsorted := (notify_loop_spec env
              (List.insertionSort topicLE (n :: new')) (load_last_seen (some r))).2.2.2 hres2
            have hnil : List.insertionSort topicLE (n :: new') = [] := by
              rw [← hsorted]
              exact hsent
            have hp := List.perm_insertionSort topicLE (n :: new')
            rw [hnil] at hp
            exact List.noConfusion hp.symm.eq_nil

/-- C5 witness: watermark 7 and a batch with ids `{8, 9}`: the loaded value 7
is a lower bound for the persisted value after the run. -/
theorem c5_watermark_monotone_witness :
    load_last_seen (some ⟨some 7⟩) ≤
      load_last_seen (run_normal envOK [topic9, topic8] (some ⟨some 7⟩)).state :=
  (c5_watermark_monotone envOK [topic9, topic8] (some ⟨some 7⟩)).1

/-- C7: normal mode is idempotent. A second normal run over the same topics,
starting from the state a successful run produced, dispatches nothing and
leaves the record identical; and a record-backed run where every fetched id
is at most the loaded watermark dispatches nothing and performs no write. -/
theorem c7_idempotent_second_run (env env2 : Env) (ts : List Topic)
    (st : Option StateRecord) :
    ((run_normal env ts st).result = .ok () →
      run_normal env2 ts (run_normal env ts st).state =
        { sent := [], msgs := [], state := (run_normal env ts st).state, writes := [],
          result := .ok () }) ∧
    (∀ rec : StateRecord, st = some rec → (∀ t ∈ ts, t.id ≤ load_last_seen (some rec)) →
      run_normal env ts st =
        { sent := [], msgs := [], state := some rec, writes := [], result := .ok () }) := by
  constructor
  · intro hres
    cases ts with
    | nil =>
      rw [run_normal_nil_eq]
    | cons t0 ts' =>
      cases st with
      | none =>
        rw [run_normal_first_eq]
        exact run_normal_no_new_general env2 _ _ fun t ht => max_id_is_max ht
      | some r =>
        rcases hfil : (t0 :: ts').filter
            (fun t => decide (load_last_seen (some r) < t.id)) with _ | ⟨n, new'⟩
        · rw [run_normal_cons_no_new env t0 ts' r hfil]
          refine run_normal_no_new_general env2 _ r fun t ht => ?_
          by_contra hlt
          have hmem : t ∈ (t0 :: ts').filter
              (fun t => decide (load_last_seen (some r) < t.id)) :=
            List.mem_filter.mpr ⟨ht, decide_eq_true (Nat.not_le.mp hlt)⟩
          rw [hfil] at hmem
          cases hmem
        · rcases hres2 : (notify_loop env (List.insertionSort topicLE (n :: new'))
              (load_last_seen (some r))).result with e' | u
          · rw [run_normal_cons_new_err env t0 ts' r (n :: new') _ e' hfil rfl rfl hres2]
              at hres
            cases hres
          · rw [run_normal_cons_new_ok env t0 ts' r (n :: new') _ hfil rfl rfl hres2]
            refine run_normal_no_new_general env2 _ _ fun t ht => ?_
            by_cases hgt : load_last_seen (some r) < t.id
            · have hmem : t ∈ List.insertionSort topicLE (n :: new') :=
                (List.perm_insertionSort topicLE (n :: new')).mem_iff.mpr
                  (hfil ▸ List.mem_filter.mpr ⟨ht, decide_eq_true hgt⟩)
              have hne : List.insertionSort topicLE (n :: new') ≠ [] := by
                intro hnil
                rw [hnil] at hmem
                cases hmem
              exact (notify_loop_ok_tracking_max env _ _ hres2
                (List.sorted_insertionSort topicLE (n :: new')) hne).1 t hmem
            · exact Nat.le_trans (Nat.not_lt.mp hgt)
                (notify_loop_tracking_ge env _ _ (sorted_new_gt r (n :: new') _ hfil))
  · intro rec hst hle
    subst hst
    exact run_normal_no_new_general env ts rec hle

/-- C7 witness: watermark 7, topics with ids `{9, 8}`: running normal mode a
second time from the state the first (successful) run produced dispatches
nothing and keeps the record identical. -/
theorem c7_idempotent_witness :
    run_normal envOK [topic9, topic8]
        (run_normal envOK [topic9, topic8] (some ⟨some 7⟩)).state =
      { sent := [], msgs := [],
        state := (run_normal envOK [topic9, topic8] (some ⟨some 7⟩)).state,
        writes := [], result := .ok () } :=
  (c7_idempotent_second_run envOK envOK [topic9, topic8] (some ⟨some 7⟩)).1 (by decide)

/-- C9: a run fails for missing credentials iff a dispatch is attempted:
with either credential unset every `send_telegram` call raises the config
error immediately (whatever the network would answer), while the runs that
attempt no dispatch (test mode on an empty listing, normal mode on an empty
listing, the first-ever normal run, and a record-backed run with no new
topics) end normally for every environment. -/
theorem c9_creds_fail_iff_dispatch (env : Env) (text : String) (st : Option StateRecord)
    (ts : List Topic) (rec : StateRecord)
    (hbad : env.bot_token.getD "" = "" ∨ env.chat_id.getD "" = "") :
    send_telegram env text = .error .configError ∧
    run_force_latest env [] = { sent := [], msgs := [], result := .ok () } ∧
    run_normal env [] st =
      { sent := [], msgs := [], state := st, writes := [], result := .ok () } ∧
    (ts ≠ [] → run_normal env ts none =
      { sent := [], msgs := [], state := some (save_last_seen (max_id ts)),
        writes := [max_id ts], result := .ok () }) ∧
    ((∀ t ∈ ts, t.id ≤ load_last_seen (some rec)) →
      run_normal env ts (some rec) =
        { sent := [], msgs := [], state := some rec, writes := [], result := .ok () }) := by
  refine ⟨?_, rfl, rfl, ?_, ?_⟩
  · unfold send_telegram
    rw [if_pos hbad]
  · intro hne
    obtain ⟨t0, ts', rfl⟩ := List.exists_cons_of_ne_nil hne
    exact run_normal_first_eq env t0 ts'
  · exact fun hle => run_normal_no_new_general env ts rec hle

/-- C9 witness: with the bot token unset, a dispatch attempt raises the
config error, while test mode over an empty listing ends normally. -/
theorem c9_creds_witness :
    send_telegram envNoCreds "hi" = .error .configError ∧
    run_force_latest envNoCreds [] = { sent := [], msgs := [], result := .ok () } :=
  ⟨(c9_creds_fail_iff_dispatch envNoCreds "hi" none [] ⟨none⟩ (by decide)).1,
    (c9_creds_fail_iff_dispatch envNoCreds "hi" none [] ⟨none⟩ (by decide)).2.1⟩

/-- Combining a weak pairwise order with distinctness gives the strict
ascending order. -/
theorem pairwise_lt_of_le_nodup (l : List Nat) (hle : l.Pairwise (· ≤ ·))
    (hnd : l.Nodup) : l.Pairwise (· < ·) :=
  (hle.and hnd).imp fun h => Nat.lt_of_le_of_ne h.1 h.2

/-- Combining a weak descending pairwise order with distinctness gives the
strict descending order. -/
theorem pairwise_gt_of_ge_nodup (l : List Nat) (hge : l.Pairwise fun a b => b ≤ a)
    (hnd : l.Nodup) : l.Pairwise (· > ·) :=
  (hge.and hnd).imp fun h => Nat.lt_of_le_of_ne h.1 (Ne.symm h.2)

/-- C1: a normal run over an existing record and a non-empty listing, with
every dispatch succeeding, notifies exactly the topics whose id exceeds the
loaded watermark, in strictly ascending id order whatever order the feed
listed them in, with the normal-mode message for each; when anything was
notified the persisted record holds exactly the maximum id among the
notified topics, and the run ends normally. -/
theorem c1_normal_run_dispatches_new_ascending (env : Env) (ts : List Topic)
    (r : StateRecord) (hok : ∀ m, send_telegram env m = .ok ())
    (hnd : (ts.map Topic.id).Nodup) (hne : ts ≠ []) :
    (∀ t, t ∈ (run_normal env ts (some r)).sent ↔
      t ∈ ts ∧ load_last_seen (some r) < t.id) ∧
    List.Sorted (· < ·) (((run_normal env ts (some r)).sent).map Topic.id) ∧
    (run_normal env ts (some r)).msgs =
      ((run_normal env ts (some r)).sent).map normal_msg ∧
    ((run_normal env ts (some r)).sent ≠ [] →
      (run_normal env ts (some r)).state =
        some (save_last_seen (max_id (run_normal env ts (some r)).sent)) ∧
      max_id ((run_normal env ts (some r)).sent) ∈
        ((run_normal env ts (some r)).sent).map Topic.id ∧
      ∀ t ∈ (run_normal env ts (some r)).sent,
        t.id ≤ max_id ((run_normal env ts (some r)).sent)) ∧
    (run_normal env ts (some r)).result = .ok () := by
  obtain ⟨t0, ts', rfl⟩ := List.exists_cons_of_ne_nil hne
  rcases hfil : (t0 :: ts').filter
      (fun t => decide (load_last_seen (some r) < t.id)) with _ | ⟨n, new'⟩
  · rw [run_normal_cons_no_new env t0 ts' r hfil]
    refine ⟨fun t => ⟨fun h => absurd h (List.not_mem_nil t), ?_⟩,
      List.sorted_nil, rfl, fun h => absurd rfl h, rfl⟩
    rintro ⟨ht, hgt⟩
    have hmem : t ∈ (t0 :: ts').filter
        (fun t => decide (load_last_seen (some r) < t.id)) :=
      List.mem_filter.mpr ⟨ht, decide_eq_true hgt⟩
    rw [hfil] at hmem
    cases hmem
  · rw [run_normal_cons_new_ok env t0 ts' r (n :: new') _ hfil rfl
      (notify_loop_all_ok env hok (List.insertionSort topicLE (n :: new'))
        (load_last_seen (some r))) rfl]
    have hperm := List.perm_insertionSort topicLE (n :: new')
    have hsortne : List.insertionSort topicLE (n :: new') ≠ [] := by
      intro hnil
      rw [hnil] at hperm
      exact List.noConfusion hperm.symm.eq_nil
    have hmapne : (List.insertionSort topicLE (n :: new')).map Topic.id ≠ [] := by
      intro hnil
      exact hsortne (List.map_eq_nil_iff.mp hnil)
    have hids_le : ((List.insertionSort topicLE (n :: new')).map Topic.id).Sorted (· ≤ ·) :=
      List.pairwise_map.mpr ((List.sorted_insertionSort topicLE (n :: new')).imp fun h => h)
    have hnd_new : ((n :: new').map Topic.id).Nodup :=
      hnd.sublist ((List.filter_sublist (t0 :: ts')).map Topic.id
        |>.trans (List.Sublist.refl _) |> (hfil ▸ ·))
    have hnd_sorted : ((List.insertionSort topicLE (n :: new')).map Topic.id).Nodup :=
      ((hperm.map Topic.id).nodup_iff).mpr hnd_new
    refine ⟨fun t => ?_, ?_, rfl, fun _ => ?_, rfl⟩
    · constructor
      · intro h
        have hmem : t ∈ n :: new' := hperm.mem_iff.mp h
        have := List.mem_filter.mp (hfil ▸ hmem)
        exact ⟨this.1, of_decide_eq_true this.2⟩
      · rintro ⟨ht, hgt⟩
        exact hperm.mem_iff.mpr
          (hfil ▸ List.mem_filter.mpr ⟨ht, decide_eq_true hgt⟩)
    · exact pairwise_lt_of_le_nodup _ hids_le hnd_sorted
    · have htr_mem := getLastD_mem hmapne (load_last_seen (some r))
      obtain ⟨u, hu, hid⟩ := List.mem_map.mp htr_mem
      have h1 : ((List.insertionSort topicLE (n :: new')).map Topic.id).getLastD
          (load_last_seen (some r)) ≤ max_id (List.insertionSort topicLE (n :: new')) :=
        hid ▸ max_id_is_max hu
      obtain ⟨v, hv, hvid⟩ := List.mem_map.mp (max_id_mem hsortne)
      have h2 : max_id (List.insertionSort topicLE (n :: new')) ≤
          ((List.insertionSort topicLE (n :: new')).map Topic.id).getLastD
            (load_last_seen (some r)) :=
        hvid ▸ sorted_le_getLastD hids_le (List.mem_map_of_mem Topic.id hv)
          (load_last_seen (some r))
      have heq := Nat.le_antisymm h1 h2
      refine ⟨?_, max_id_mem hsortne, fun t ht => max_id_is_max ht⟩
      show some (save_last_seen (((List.insertionSort topicLE (n :: new')).map
        Topic.id).getLastD (load_last_seen (some r)))) = _
      rw [heq]

/-- C1 witness: watermark 7 with fetched topic ids `{9, 8, 7}` (listed
newest-first): exactly the alerts for 8 then 9 are sent, in that order, and
the persisted watermark becomes 9. -/
theorem c1_normal_run_witness :
    ((run_normal envOK [topic9, topic8, topic7] (some ⟨some 7⟩)).sent = [topic8, topic9] ∧
      (run_normal envOK [topic9, topic8, topic7] (some ⟨some 7⟩)).state =
        some (save_last_seen 9)) ∧
    List.Sorted (· < ·)
      (((run_normal envOK [topic9, topic8, topic7] (some ⟨some 7⟩)).sent).map Topic.id) :=
  ⟨⟨by decide, by decide⟩,
    (c1_normal_run_dispatches_new_ascending envOK [topic9, topic8, topic7] ⟨some 7⟩
      (fun _ => rfl) (by decide) (by decide)).2.1⟩

/-- C8: the fetcher returns exactly the listed topics (as a permutation of
the raw listing, whatever order the source used), re-sorted strictly
descending by id, and an empty listing yields the empty sequence rather
than an error. -/
theorem c8_fetch_sorts_descending (d : CategoryResponse)
    (hnd : ((raw_topics d).map Topic.id).Nodup) :
    List.Perm (fetch_uniswap_topics d) (raw_topics d) ∧
    List.Sorted (· > ·) ((fetch_uniswap_topics d).map Topic.id) ∧
    (raw_topics d = [] → fetch_uniswap_topics d = []) := by
  have hperm := List.perm_insertionSort topicGE (raw_topics d)
  refine ⟨hperm, ?_, ?_⟩
  · have hids_ge : ((fetch_uniswap_topics d).map Topic.id).Pairwise (fun a b => b ≤ a) :=
      List.pairwise_map.mpr
        ((List.sorted_insertionSort topicGE (raw_topics d)).imp fun h => h)
    have hnd_sorted : ((fetch_uniswap_topics d).map Topic.id).Nodup :=
      ((hperm.map Topic.id).nodup_iff).mpr hnd
    exact pairwise_gt_of_ge_nodup _ hids_ge hnd_sorted
  · intro h
    rw [fetch_uniswap_topics, h]
    rfl

/-- C8 witness: a listing received oldest-first with ids `{8, 9}` comes back
as the permutation `[9, 8]`; an empty listing comes back empty. -/
theorem c8_fetch_witness :
    List.Perm (fetch_uniswap_topics respAB) (raw_topics respAB) ∧
    fetch_uniswap_topics respAB = [topic9, topic8] ∧
    fetch_uniswap_topics respEmpty = [] :=
  ⟨(c8_fetch_sorts_descending respAB (by decide)).1, by decide,
    (c8_fetch_sorts_descending respEmpty (by decide)).2.2 rfl⟩

/-- C6: in test mode over a non-empty fetched listing, exactly one
notification goes out, it is the test-labelled message for the topic with
the maximum id, and the state file is neither read, created nor modified:
the resulting state equals the incoming one (absent stays absent, present
stays unchanged) and no write happens. -/
theorem c6_test_mode_frame (env : Env) (d : CategoryResponse) (st : Option StateRecord)
    (t : Topic) (hmem : t ∈ raw_topics d) (hmax : ∀ u ∈ raw_topics d, u.id ≤ t.id)
    (hnd : ((raw_topics d).map Topic.id).Nodup)
    (hsend : send_telegram env (test_msg t) = .ok ()) :
    mainRun env true d st =
      { sent := [t], msgs := [test_msg t], state := st, writes := [],
        result := .ok () } ∧
    "*[TEST]*".data <+: (test_msg t).data := by
  constructor
  · have hperm := List.perm_insertionSort topicGE (raw_topics d)
    rcases hsort : List.insertionSort topicGE (raw_topics d) with _ | ⟨h0, tail⟩
    · exfalso
      rw [hsort] at hperm
      have : raw_topics d = [] := hperm.symm.eq_nil
      rw [this] at hmem
      cases hmem
    · have hh0mem : h0 ∈ raw_topics d := by
        refine hperm.mem_iff.mp ?_
        rw [hsort]
        exact List.mem_cons_self h0 tail
      have hle : h0.id ≤ t.id := hmax h0 hh0mem
      have hge : t.id ≤ h0.id := by
        have htmem : t ∈ h0 :: tail := by
          rw [← hsort]
          exact hperm.mem_iff.mpr hmem
        rcases List.mem_cons.mp htmem with rfl | htail
        · exact Nat.le_refl _
        · have hsorted := List.sorted_insertionSort topicGE (raw_topics d)
          rw [hsort] at hsorted
          exact List.rel_of_sorted_cons hsorted t htail
      have hht : h0 = t :=
        List.inj_on_of_nodup_map hnd hh0mem hmem (Nat.le_antisymm hle hge)
      subst hht
      show (let o := run_force_latest env (fetch_uniswap_topics d)
            ({ sent := o.sent, msgs := o.msgs, state := st, writes := [],
               result := o.result } : RunOut)) = _
      rw [fetch_uniswap_topics, hsort]
      simp only [run_force_latest, hsend]
  · have hdata : (test_msg t).data =
        "*[TEST]* Latest topic on Uniswap Proposal Discussion*\n".data ++
          (t.title.data ++ ("\n".data ++ (topic_url t).data)) := by
      simp [test_msg, UNISWAP_FORUM_NAME, String.data_append, List.append_assoc]
    rw [hdata]
    have hp : "*[TEST]*".data <+:
        "*[TEST]* Latest topic on Uniswap Proposal Discussion*\n".data := by decide
    exact hp.trans ⟨_, rfl⟩

/-- C6 witness: test mode over a feed listing ids `{8, 9}` and no persisted
state sends exactly the test alert for id 9 and leaves the state absent. -/
theorem c6_test_mode_witness :
    mainRun envOK true respAB none =
      { sent := [topic9], msgs := [test_msg topic9], state := none, writes := [],
        result := .ok () } ∧
    "*[TEST]*".data <+: (test_msg topic9).data :=
  ⟨(c6_test_mode_frame envOK respAB none topic9 (by decide) (by decide) (by decide) rfl).1,
    (c6_test_mode_frame envOK respAB none topic9 (by decide) (by decide) (by decide) rfl).2⟩
